import Mathlib

/-!
Verification of `src/dataflow/DataReaders/VawFileReaders/VawFileReader.py`.

Python strings are modelled as `List Char`; the Python builtins used by the
source (`str.strip`, `str.split` on a one-character separator, `str.replace`,
`int(...)`, list indexing, `datetime.date`) are given explicit executable
models below.  Lines of the data file are modelled as the list of the file's
lines; every value the source extracts from a line passes through
`str.strip()`, so the trailing newline of Python's line iteration is
immaterial and the model omits it.
-/

/-- Model of the ASCII whitespace set recognised by Python's `str.strip()`
(restricted to the ASCII range, which covers the file format at hand). -/
def pySpace (c : Char) : Bool :=
  c = ' ' ∨ c = '\t' ∨ c = '\n' ∨ c = '\r' ∨ c = '\x0b' ∨ c = '\x0c'

/-- Decimal digit test. -/
def isDigit (c : Char) : Bool :=
  '0' ≤ c ∧ c ≤ '9'

/-- Value of a list of decimal digits, most significant first. -/
def digitsVal (cs : List Char) : Nat :=
  cs.foldl (fun a c => 10 * a + (c.toNat - 48)) 0

/-- Model of Python `str.strip()`: remove whitespace from both ends. -/
def pyStrip (cs : List Char) : List Char :=
  ((cs.dropWhile pySpace).reverse.dropWhile pySpace).reverse

/-- Model of Python `int(...)` applied to a string: strip whitespace, allow a
single sign, then require a nonempty run of decimal digits; `none` models the
`ValueError` raised otherwise.  (Underscore digit grouping, accepted by recent
Python, does not occur in the file format and is not modelled.) -/
def pyInt (cs : List Char) : Option Int :=
  match pyStrip cs with
  | [] => none
  | c :: rest =>
    if c = '-' then
      if rest ≠ [] ∧ rest.all isDigit then some (-(digitsVal rest : Int)) else none
    else if c = '+' then
      if rest ≠ [] ∧ rest.all isDigit then some ((digitsVal rest : Int)) else none
    else
      if (c :: rest).all isDigit then some ((digitsVal (c :: rest) : Int)) else none

/-- Model of Python `str.split(sep)` for a one-character separator. -/
def splitOnChar (sep : Char) : List Char → List (List Char)
  | [] => [[]]
  | c :: rest =>
    if c = sep then [] :: splitOnChar sep rest
    else
      match splitOnChar sep rest with
      | [] => [[c]]
      | h :: t => (c :: h) :: t

/-- Does `pat` occur at the head of `cs`? -/
def beginsWith : List Char → List Char → Bool
  | [], _ => true
  | _ :: _, [] => false
  | p :: ps, c :: cs => p = c && beginsWith ps cs

/-- Fuel-driven worker for `pyReplaceStr`; `fuel ≥ cs.length` always suffices
because a nonempty pattern consumes at least one character per step, so the
fuel-exhaustion branch is unreachable from `pyReplaceStr`. -/
def pyReplaceFuel (pat rep : List Char) : Nat → List Char → List Char
  | _, [] => []
  | 0, cs => cs
  | fuel + 1, c :: rest =>
    if beginsWith pat (c :: rest) then
      rep ++ pyReplaceFuel pat rep fuel ((c :: rest).drop pat.length)
    else
      c :: pyReplaceFuel pat rep fuel rest

/-- Model of Python `str.replace(pat, rep)`: replace every (non-overlapping,
leftmost-first) occurrence.  The empty-pattern case (where Python interleaves
`rep` everywhere) never arises in the source and is modelled as the identity. -/
def pyReplaceStr (pat rep cs : List Char) : List Char :=
  if pat = [] then cs else pyReplaceFuel pat rep cs.length cs

/-- Gregorian leap-year rule used by Python's `datetime`. -/
def isLeap (y : Nat) : Bool :=
  y % 4 = 0 ∧ (y % 100 ≠ 0 ∨ y % 400 = 0)

/-- Days in a month, as validated by `datetime.date`. -/
def daysInMonth (y m : Nat) : Nat :=
  if m = 2 then (if isLeap y then 29 else 28)
  else if m = 4 ∨ m = 6 ∨ m = 9 ∨ m = 11 then 30
  else 31

/-- A valid `datetime.date` value. -/
structure PyDate where
  year : Nat
  month : Nat
  day : Nat
deriving DecidableEq

/-- Model of the `datetime.date(year, month, day)` constructor: `none` models
the `ValueError` raised on out-of-range components (`datetime.MINYEAR = 1`,
`datetime.MAXYEAR = 9999`). -/
def pyDate (y m d : Int) : Option PyDate :=
  if 1 ≤ y ∧ y ≤ 9999 ∧ 1 ≤ m ∧ m ≤ 12 ∧ 1 ≤ d ∧ d ≤ (daysInMonth y.toNat m.toNat : Int)
  then some ⟨y.toNat, m.toNat, d.toNat⟩
  else none

/-- Modelled from the spec: `DataObjects.Enumerations.DateEnumerations.
DateQualityTypeEnum`, whose module is not under `src/`.  The spec treats the
quality tag as an opaque two-valued type \x7bPrecise, Estimated\x7d; the source
docstrings give the integer codes `1 = known`, `11 = estimated`, which
`_reformateDate` returns literally and which this model identifies with the
two enum members (see `DateQualityTypeEnum.code`). -/
inductive DateQualityTypeEnum where
  | Precisely
  | Estimated
deriving DecidableEq

/-- Integer code of a quality tag, from the source docstrings
("1 = known, 11 = estimated"). -/
def DateQualityTypeEnum.code : DateQualityTypeEnum → Nat
  | .Precisely => 1
  | .Estimated => 11

/-- Embedding of `VawFileReader._reformateDate` (source lines 133-170): split
the token on `'.'`, apply the `"00"` sentinel substitutions (day → 1,
month → 9), tag the quality, and build a `datetime.date`.  A missing part
(`IndexError`), a non-numeric part (`ValueError` from `int`) or an impossible
date (`ValueError` from `datetime.date`) is `none`.  The source returns the
integer quality codes 11 / 1, rendered here as the enum members they encode
(see `DateQualityTypeEnum`). -/
def _reformateDate (dateVaw : List Char) : Option (PyDate × DateQualityTypeEnum) := do
  let dateVawParts := splitOnChar '.' dateVaw
  let p0 ← dateVawParts[0]?
  let p1 ← dateVawParts[1]?
  let quality := if p0 = ['0', '0'] ∨ p1 = ['0', '0'] then DateQualityTypeEnum.Estimated
    else DateQualityTypeEnum.Precisely
  let day ← if p0 = ['0', '0'] then some (1 : Int) else pyInt p0
  let month ← if p1 = ['0', '0'] then some (9 : Int) else pyInt p1
  let p2 ← dateVawParts[2]?
  let year ← pyInt p2
  let d ← pyDate year month day
  some (d, quality)

/-- Embedding of `VawFileReader._reformateDateYyyyMmDd` (source lines
176-214): slice the compact token into `[day = chars 6.., month = chars 4-6,
year = chars 0-4]` and apply the same sentinel rule as `_reformateDate`. -/
def _reformateDateYyyyMmDd (yyyymmdd : List Char) : Option (PyDate × DateQualityTypeEnum) := do
  let dateParts := [yyyymmdd.drop 6, (yyyymmdd.take 6).drop 4, yyyymmdd.take 4]
  let p0 ← dateParts[0]?
  let p1 ← dateParts[1]?
  let quality := if p0 = ['0', '0'] ∨ p1 = ['0', '0'] then DateQualityTypeEnum.Estimated
    else DateQualityTypeEnum.Precisely
  let day ← if p0 = ['0', '0'] then some (1 : Int) else pyInt p0
  let month ← if p1 = ['0', '0'] then some (9 : Int) else pyInt p1
  let p2 ← dateParts[2]?
  let year ← pyInt p2
  let d ← pyDate year month day
  some (d, quality)

/-- Embedding of `VawFileReader._reformateDateMmDd` (source lines 172-174):
`"{0}{1}".format(yyyy, mmdd)` concatenates the two tokens before delegating. -/
def _reformateDateMmDd (mmdd yyyy : List Char) : Option (PyDate × DateQualityTypeEnum) :=
  _reformateDateYyyyMmDd (yyyy ++ mmdd)

/-- Common tail of the two normalizers after part extraction (the source
duplicates this block verbatim in `_reformateDate` and
`_reformateDateYyyyMmDd`); used only to factor the proofs. -/
def normalizeParts (p0 p1 p2 : List Char) : Option (PyDate × DateQualityTypeEnum) := do
  let quality := if p0 = ['0', '0'] ∨ p1 = ['0', '0'] then DateQualityTypeEnum.Estimated
    else DateQualityTypeEnum.Precisely
  let day ← if p0 = ['0', '0'] then some (1 : Int) else pyInt p0
  let month ← if p1 = ['0', '0'] then some (9 : Int) else pyInt p1
  let year ← pyInt p2
  let d ← pyDate year month day
  some (d, quality)


/-- A diagnostic message printed by `parseHeader`'s per-line exception
handler: `"{0} @ {1}: {2}".format(vaw, lineCounter, e)`.  The `source` field
stands for the repr of the open file object (which identifies the file), and
`detail` for the repr of the caught exception. -/
structure LogEntry where
  source : List Char
  lineNumber : Nat
  detail : List Char
deriving DecidableEq

/-- Detail text of a Python `IndexError` raised by out-of-range list
indexing, the one exception reachable in `parseHeader`'s loop body. -/
def indexErrorDetail : List Char := "list index out of range".data

/-- The literal attribution token of `VawFileReader._DATA_SOURCE_PREFIX`
(source line 45). -/
def attributionMark : List Char := "# © ".data

/-- Common position of the short name in the header line
(`_HEADER_POSITION_SHORTNAME`, source line 40). -/
def _HEADER_POSITION_SHORTNAME : Nat := 1

/-- Common position of the VAW identifier in the header line
(`_HEADER_POSITION_VAWIDENTIFIER`, source line 41). -/
def _HEADER_POSITION_VAWIDENTIFIER : Nat := 2

/-- Python dict assignment `d[k] = v` on an insertion-ordered dict modelled
as an association list: an existing key keeps its position, a new key is
appended. -/
def dictSet (d : List (Nat × List Char)) (k : Nat) (v : List Char) : List (Nat × List Char) :=
  if d.any (fun p => p.1 = k) then d.map (fun p => if p.1 = k then (k, v) else p)
  else d ++ [(k, v)]

/-- Python dict lookup `d[k]`; `none` models the `KeyError`. -/
def dictGet? (d : List (Nat × List Char)) (k : Nat) : Option (List Char) :=
  (d.find? (fun p => p.1 = k)).map (fun p => p.2)

/-- The `_headerLineContent` dictionary as `__init__` populates it (source
lines 59-61): position 1 ↦ "Glacier short name", position 2 ↦
"VAW identifier", in that insertion order. -/
def initialHeaderLineContent : List (Nat × List Char) :=
  dictSet (dictSet [] _HEADER_POSITION_SHORTNAME "Glacier short name".data)
    _HEADER_POSITION_VAWIDENTIFIER "VAW identifier".data

/-- Embedding of `VawFileReader._getMetadata` (source lines 216-233): split
the header line on `';'` and, iterating over the dict entries in insertion
order, overwrite each entry's value with the stripped segment at its
position.  The returned flag is `true` when `lineParts[key]` raised
`IndexError`; entries before the failing one keep their freshly written
values, the failing entry and all later ones keep their previous values (the
mutation is in place, one key at a time). -/
def _getMetadata : List (Nat × List Char) → List (List Char) → List (Nat × List Char) × Bool
  | [], _ => ([], false)
  | (key, value) :: rest, lineParts =>
    match lineParts[key]? with
    | none => ((key, value) :: rest, true)
    | some part =>
      let r := _getMetadata rest lineParts
      ((key, pyStrip part) :: r.1, r.2)

/-- One iteration of `parseHeader`'s loop body (source lines 115-131) on the
line with 1-based number `lineCounter`: the `try` block runs `_getMetadata`
on line 1, then stores the stripped line with the attribution token removed
as `_dataSource` on the line whose number equals `_numberHeaderLines`; an
exception in `_getMetadata` skips the rest of the block and is logged. -/
def parseHeaderLine (source : List Char) (nhl : Int) (content : List (Nat × List Char))
    (dataSource : Option (List Char)) (lineCounter : Nat) (line : List Char) :
    List (Nat × List Char) × Option (List Char) × List LogEntry :=
  let r := if lineCounter = 1 then _getMetadata content (splitOnChar ';' line)
    else (content, false)
  if r.2 then (r.1, dataSource, [⟨source, lineCounter, indexErrorDetail⟩])
  else if (lineCounter : Int) = nhl then
    (r.1, some (pyReplaceStr attributionMark [] (pyStrip line)), [])
  else (r.1, dataSource, [])

/-- The loop of `parseHeader` over the remaining lines, with `counter` lines
already consumed: returns the final header-content dict, the final
`_dataSource`, and the log messages printed along the way. -/
def parseHeaderFrom (source : List Char) (nhl : Int) :
    Nat → List (Nat × List Char) → Option (List Char) → List (List Char) →
    List (Nat × List Char) × Option (List Char) × List LogEntry
  | _, content, ds, [] => (content, ds, [])
  | counter, content, ds, line :: rest =>
    let r := parseHeaderLine source nhl content ds (counter + 1) line
    let rr := parseHeaderFrom source nhl (counter + 1) r.1 r.2.1 rest
    (rr.1, rr.2.1, r.2.2 ++ rr.2.2)

/-- Embedding of `VawFileReader.parseHeader` (source lines 99-131): iterate
over the file's lines with a 1-based counter starting from 0.  `source`
stands for the file identity (used in log messages), `lines` for the file's
contents, `nhl` for the configured `_numberHeaderLines`, `content` and `ds`
for `_headerLineContent` and `_dataSource` on entry. -/
def parseHeader (source : List Char) (nhl : Int) (content : List (Nat × List Char))
    (ds : Option (List Char)) (lines : List (List Char)) :
    List (Nat × List Char) × Option (List Char) × List LogEntry :=
  parseHeaderFrom source nhl 0 content ds lines

/-- Modelled from the spec: `DataObjects.Glacier.Glacier`, whose module is
not under `src/`.  The spec requires only "glacier entities, each carrying a
numeric VAW identifier (`pkVaw`)"; `tag` stands for the entity's remaining
attributes and keeps distinct entities distinguishable. -/
structure Glacier where
  pkVaw : Int
  tag : Nat
deriving DecidableEq

/-- The glacier-resolution loop of `__init__` (source lines 72-77): a linear
scan over the registry's values with no early exit, so the last entry whose
`pkVaw` equals the parsed identifier wins. -/
def resolveGlacier (glacierValues : List Glacier) (givenVawId : Int) : Option Glacier :=
  glacierValues.foldl (fun acc glacier => if glacier.pkVaw = givenVawId then some glacier else acc)
    none

/-- The exceptions `__init__` can raise.  `glacierNotFound` embeds
`DataObjects.Exceptions.GlacierNotFoundError` (module not under `src/`;
modelled from the spec as an error carrying the diagnostic message built at
source lines 83-84).  `valueError` models `int(...)` failing on the header
field, `keyError` a missing dict key. -/
inductive InitError where
  | glacierNotFound (message : List Char)
  | valueError
  | keyError
deriving DecidableEq

/-- A fully constructed `VawFileReader`: the instance attributes bound by
`__init__` and the class attributes it relies on.  `_fullFileName` doubles as
the file identity used in log messages; `_fileLines` carries the content of
the opened file (the base `AsciiFileDateReader`, not under `src/`, only
stores the path; the file itself is read by `parseHeader`). -/
structure VawFileReader where
  _fullFileName : List Char
  _fileLines : List (List Char)
  _numberHeaderLines : Int
  _numberDataLines : Int
  _headerLineContent : List (Nat × List Char)
  _dataSource : Option (List Char)
  _glacier : Glacier
deriving DecidableEq

/-- The diagnostic message of `GlacierNotFoundError` (source lines 83-84):
`"No corresponding glacier found. Header information given VAW-PK {0} and
short name {1}".format(content[2], content[1])`. -/
def glacierNotFoundMessage (idStr nameStr : List Char) : List Char :=
  "No corresponding glacier found. Header information given VAW-PK ".data ++ idStr ++
    " and short name ".data ++ nameStr

/-- Embedding of `VawFileReader.__init__` (source lines 47-85) for a reader
with header-line count `nhl` (the base class default is -1; subclasses
override it): populate `_headerLineContent`, parse the header, parse the VAW
identifier field as an integer, scan the registry and either bind the found
glacier or raise `GlacierNotFoundError`.  `glacierValues` is
`glaciers.values()` in iteration order. -/
def vawFileReaderInit (fullFileName : List Char) (fileLines : List (List Char)) (nhl : Int)
    (glacierValues : List Glacier) : Except InitError VawFileReader :=
  match dictGet? (parseHeader fullFileName nhl initialHeaderLineContent none fileLines).1
      _HEADER_POSITION_VAWIDENTIFIER with
  | none => Except.error InitError.keyError
  | some idStr =>
    match pyInt idStr with
    | none => Except.error InitError.valueError
    | some givenVawId =>
      match resolveGlacier glacierValues givenVawId with
      | some glacierFound =>
        Except.ok ⟨fullFileName, fileLines, nhl, -1,
          (parseHeader fullFileName nhl initialHeaderLineContent none fileLines).1,
          (parseHeader fullFileName nhl initialHeaderLineContent none fileLines).2.1,
          glacierFound⟩
      | none =>
        match dictGet? (parseHeader fullFileName nhl initialHeaderLineContent none fileLines).1
            _HEADER_POSITION_SHORTNAME with
        | none => Except.error InitError.keyError
        | some nameStr => Except.error (InitError.glacierNotFound
            (glacierNotFoundMessage idStr nameStr))

/-- Embedding of the `numberDataLines` property (source lines 87-97). -/
def VawFileReader.numberDataLines (r : VawFileReader) : Int :=
  r._numberDataLines

/-- Stated from the spec's words for claim C7, for comparison with the code:
"extracts the entire line, trims it, and strips a literal attribution prefix
token if present, storing the remainder". -/
def specAttribution (line : List Char) : List Char :=
  let t := pyStrip line
  if beginsWith attributionMark t then t.drop attributionMark.length else t

/-- Decidable equality for `Except`, so that constructor runs can be checked
by `decide`. -/
instance instDecidableEqExcept {ε α : Type _} [DecidableEq ε] [DecidableEq α] :
    DecidableEq (Except ε α) := fun x y =>
  match x, y with
  | .ok a, .ok b =>
    if h : a = b then isTrue (congrArg Except.ok h)
    else isFalse (fun hh => h (by injection hh))
  | .error a, .error b =>
    if h : a = b then isTrue (congrArg Except.error h)
    else isFalse (fun hh => h (by injection hh))
  | .ok _, .error _ => isFalse (fun hh => by injection hh)
  | .error _, .ok _ => isFalse (fun hh => by injection hh)

theorem not_space_of_digit {c : Char} (h : isDigit c = true) : pySpace c = false := by
  have h' : '0' ≤ c ∧ c ≤ '9' := by simpa [isDigit] using h
  have hn : ¬(c = ' ' ∨ c = '\t' ∨ c = '\n' ∨ c = '\r' ∨ c = '\x0b' ∨ c = '\x0c') := by
    rintro (rfl | rfl | rfl | rfl | rfl | rfl) <;> exact absurd h' (by decide)
  simpa [pySpace] using hn

theorem dropWhile_space_of_digits (cs : List Char) (h : cs.all isDigit = true) :
    cs.dropWhile pySpace = cs := by
  cases cs with
  | nil => rfl
  | cons c t =>
    rw [List.all_cons, Bool.and_eq_true] at h
    simp [List.dropWhile_cons, not_space_of_digit h.1]

theorem pyStrip_of_digits (cs : List Char) (h : cs.all isDigit = true) : pyStrip cs = cs := by
  unfold pyStrip
  rw [dropWhile_space_of_digits cs h, dropWhile_space_of_digits cs.reverse (by
    rwa [List.all_reverse]), List.reverse_reverse]

theorem pyInt_of_digits (cs : List Char) (hne : cs ≠ []) (h : cs.all isDigit = true) :
    pyInt cs = some ((digitsVal cs : Nat) : Int) := by
  unfold pyInt
  rw [pyStrip_of_digits cs h]
  cases cs with
  | nil => exact absurd rfl hne
  | cons c t =>
    have hc : isDigit c = true := by
      rw [List.all_cons, Bool.and_eq_true] at h
      exact h.1
    have hcm : c ≠ '-' := by rintro rfl; exact absurd hc (by decide)
    have hcp : c ≠ '+' := by rintro rfl; exact absurd hc (by decide)
    simp [hcm, hcp, h]

theorem splitOnChar_no_sep (sep : Char) (a : List Char) (ha : sep ∉ a) :
    splitOnChar sep a = [a] := by
  induction a with
  | nil => rfl
  | cons c t ih =>
    have hc : c ≠ sep := fun e => ha (e ▸ List.mem_cons_self c t)
    have ht : sep ∉ t := fun m => ha (List.mem_cons_of_mem c m)
    simp [splitOnChar, hc, ih ht]

theorem splitOnChar_sep_append (sep : Char) (a b : List Char) (ha : sep ∉ a) :
    splitOnChar sep (a ++ sep :: b) = a :: splitOnChar sep b := by
  induction a with
  | nil => simp [splitOnChar]
  | cons c t ih =>
    have hc : c ≠ sep := fun e => ha (e ▸ List.mem_cons_self c t)
    have ht : sep ∉ t := fun m => ha (List.mem_cons_of_mem c m)
    simp only [List.cons_append, splitOnChar, if_neg hc, List.append_eq]
    rw [ih ht]

theorem not_dot_mem_of_digits (cs : List Char) (h : cs.all isDigit = true) : '.' ∉ cs := by
  intro hm
  have := List.all_eq_true.mp h _ hm
  exact absurd this (by decide)

theorem reformateDate_eq_normalizeParts (p0 p1 p2 : List Char)
    (h0 : '.' ∉ p0) (h1 : '.' ∉ p1) (h2 : '.' ∉ p2) :
    _reformateDate (p0 ++ '.' :: (p1 ++ '.' :: p2)) = normalizeParts p0 p1 p2 := by
  have hs : splitOnChar '.' (p0 ++ '.' :: (p1 ++ '.' :: p2)) = [p0, p1, p2] := by
    rw [splitOnChar_sep_append _ _ _ h0, splitOnChar_sep_append _ _ _ h1,
      splitOnChar_no_sep _ _ h2]
  simp only [_reformateDate, hs]
  rfl

theorem reformateDateYyyyMmDd_eq_normalizeParts (s : List Char) :
    _reformateDateYyyyMmDd s = normalizeParts (s.drop 6) ((s.take 6).drop 4) (s.take 4) := rfl

theorem pyDate_some {y m d : Int} {dt : PyDate} (h : pyDate y m d = some dt) :
    dt.year = y.toNat ∧ dt.month = m.toNat ∧ dt.day = d.toNat := by
  unfold pyDate at h
  split at h
  · cases h
    exact ⟨rfl, rfl, rfl⟩
  · cases h

theorem normalizeParts_eq (p0 p1 p2 : List Char) :
    normalizeParts p0 p1 p2 =
      (if p0 = ['0', '0'] then some (1 : Int) else pyInt p0).bind (fun day =>
        (if p1 = ['0', '0'] then some (9 : Int) else pyInt p1).bind (fun month =>
          (pyInt p2).bind (fun year =>
            (pyDate year month day).bind (fun d =>
              some (d, if p0 = ['0', '0'] ∨ p1 = ['0', '0'] then DateQualityTypeEnum.Estimated
                else DateQualityTypeEnum.Precisely))))) := by
  by_cases hp0 : p0 = ['0', '0'] <;> by_cases hp1 : p1 = ['0', '0'] <;>
    simp [normalizeParts, hp0, hp1]

theorem normalizeParts_spec (p0 p1 p2 : List Char) (d : PyDate) (q : DateQualityTypeEnum)
    (h0 : p0 ≠ []) (h0d : p0.all isDigit = true)
    (h1 : p1 ≠ []) (h1d : p1.all isDigit = true)
    (h2 : p2 ≠ []) (h2d : p2.all isDigit = true)
    (h : normalizeParts p0 p1 p2 = some (d, q)) :
    d.day = (if p0 = ['0', '0'] then 1 else digitsVal p0)
    ∧ d.month = (if p1 = ['0', '0'] then 9 else digitsVal p1)
    ∧ d.year = digitsVal p2
    ∧ q = (if p0 = ['0', '0'] ∨ p1 = ['0', '0'] then DateQualityTypeEnum.Estimated
        else DateQualityTypeEnum.Precisely) := by
  by_cases hp0 : p0 = ['0', '0'] <;> by_cases hp1 : p1 = ['0', '0'] <;>
    simp only [normalizeParts_eq, hp0, hp1, eq_self_iff_true, if_true, if_false, true_or,
      or_true, false_or, or_false, iff_true, not_false_iff, pyInt_of_digits p0 h0 h0d,
      pyInt_of_digits p1 h1 h1d, pyInt_of_digits p2 h2 h2d, Option.some_bind] at h <;>
  · rcases Option.bind_eq_some.mp h with ⟨dt, hdt, hsome⟩
    cases hsome
    obtain ⟨hy, hm, hd⟩ := pyDate_some hdt
    simp [hp0, hp1, hy, hm, hd, Int.toNat_natCast]

theorem ne_nil_of_length_eq {cs : List Char} {n : Nat} (h : cs.length = n) (hn : n ≠ 0) :
    cs ≠ [] := by
  intro e
  rw [e] at h
  exact hn h.symm

theorem all_digits_subset {a b : List Char} (hsub : a ⊆ b) (h : b.all isDigit = true) :
    a.all isDigit = true :=
  List.all_eq_true.mpr (fun x hx => List.all_eq_true.mp h x (hsub hx))

/-- C1: for every dotted date token of the form `dd.mm.yyyy` given to
`_reformateDate` that yields a result, the result date's day is 1 if the day
token equals "00" and otherwise the integer value of the day token; the month
is 9 if the month token equals "00" and otherwise the integer value of the
month token; the year is the integer value of the year token; and the quality
tag is Estimated iff the day token or the month token equals "00", otherwise
Precise. -/
theorem claim_C1_dotted_normalizer (dd mm yyyy : List Char) (d : PyDate)
    (q : DateQualityTypeEnum)
    (hdl : dd.length = 2) (hml : mm.length = 2) (hyl : yyyy.length = 4)
    (hdd : dd.all isDigit = true) (hmd : mm.all isDigit = true) (hyd : yyyy.all isDigit = true)
    (hres : _reformateDate (dd ++ '.' :: (mm ++ '.' :: yyyy)) = some (d, q)) :
    d.day = (if dd = ['0', '0'] then 1 else digitsVal dd)
    ∧ d.month = (if mm = ['0', '0'] then 9 else digitsVal mm)
    ∧ d.year = digitsVal yyyy
    ∧ q = (if dd = ['0', '0'] ∨ mm = ['0', '0'] then DateQualityTypeEnum.Estimated
        else DateQualityTypeEnum.Precisely) := by
  rw [reformateDate_eq_normalizeParts dd mm yyyy (not_dot_mem_of_digits _ hdd)
    (not_dot_mem_of_digits _ hmd) (not_dot_mem_of_digits _ hyd)] at hres
  exact normalizeParts_spec dd mm yyyy d q (ne_nil_of_length_eq hdl (by decide)) hdd
    (ne_nil_of_length_eq hml (by decide)) hmd (ne_nil_of_length_eq hyl (by decide)) hyd hres

/-- Witness for C1 at the two tokens named by the claim: "00.00.2018" yields
(date(2018, 9, 1), Estimated) and "15.06.2020" yields
(date(2020, 6, 15), Precise). -/
theorem claim_C1_dotted_normalizer_witness :
    _reformateDate ("00".data ++ '.' :: ("00".data ++ '.' :: "2018".data))
        = some (⟨2018, 9, 1⟩, DateQualityTypeEnum.Estimated)
    ∧ (⟨2018, 9, 1⟩ : PyDate).year = digitsVal "2018".data
    ∧ _reformateDate ("15".data ++ '.' :: ("06".data ++ '.' :: "2020".data))
        = some (⟨2020, 6, 15⟩, DateQualityTypeEnum.Precisely)
    ∧ (⟨2020, 6, 15⟩ : PyDate).day = (if "15".data = ['0', '0'] then 1 else digitsVal "15".data) := by
  have h1 := claim_C1_dotted_normalizer "00".data "00".data "2018".data ⟨2018, 9, 1⟩
    DateQualityTypeEnum.Estimated (by decide) (by decide) (by decide) (by decide) (by decide)
    (by decide) (by decide)
  have h2 := claim_C1_dotted_normalizer "15".data "06".data "2020".data ⟨2020, 6, 15⟩
    DateQualityTypeEnum.Precisely (by decide) (by decide) (by decide) (by decide) (by decide)
    (by decide) (by decide)
  exact ⟨by decide, h1.2.2.1, by decide, h2.1⟩

/-- C4: for every 8-character compact token given to `_reformateDateYyyyMmDd`
that yields a result, the token is sliced into day = chars 6-8, month =
chars 4-6, year = chars 0-4, and the same sentinel rule as the dotted
normalizer applies; in particular "20180000" yields (date(2018, 9, 1),
Estimated) and "20200615" yields (date(2020, 6, 15), Precise). -/
theorem claim_C4_compact_normalizer (s : List Char) (d : PyDate) (q : DateQualityTypeEnum)
    (hl : s.length = 8) (hdig : s.all isDigit = true)
    (hres : _reformateDateYyyyMmDd s = some (d, q)) :
    (d.day = (if s.drop 6 = ['0', '0'] then 1 else digitsVal (s.drop 6))
      ∧ d.month = (if (s.take 6).drop 4 = ['0', '0'] then 9 else digitsVal ((s.take 6).drop 4))
      ∧ d.year = digitsVal (s.take 4)
      ∧ q = (if s.drop 6 = ['0', '0'] ∨ (s.take 6).drop 4 = ['0', '0']
          then DateQualityTypeEnum.Estimated else DateQualityTypeEnum.Precisely))
    ∧ _reformateDateYyyyMmDd "20180000".data = some (⟨2018, 9, 1⟩, DateQualityTypeEnum.Estimated)
    ∧ _reformateDateYyyyMmDd "20200615".data
        = some (⟨2020, 6, 15⟩, DateQualityTypeEnum.Precisely) := by
  rw [reformateDateYyyyMmDd_eq_normalizeParts] at hres
  refine ⟨normalizeParts_spec _ _ _ _ _ ?_ ?_ ?_ ?_ ?_ ?_ hres, by decide, by decide⟩
  · exact ne_nil_of_length_eq (by rw [List.length_drop, hl]) (by decide)
  · exact all_digits_subset (List.drop_subset 6 s) hdig
  · exact ne_nil_of_length_eq (by rw [List.length_drop, List.length_take, hl]) (by decide)
  · exact all_digits_subset (fun x hx => List.take_subset 6 s (List.drop_subset 4 _ hx)) hdig
  · exact ne_nil_of_length_eq (by rw [List.length_take, hl]) (by decide)
  · exact all_digits_subset (List.take_subset 4 s) hdig

/-- Witness for C4 at the token "20200615". -/
theorem claim_C4_compact_normalizer_witness :
    ("20200615".data.length = 8 ∧ "20200615".data.all isDigit = true
      ∧ _reformateDateYyyyMmDd "20200615".data
          = some (⟨2020, 6, 15⟩, DateQualityTypeEnum.Precisely))
    ∧ (⟨2020, 6, 15⟩ : PyDate).year = digitsVal ("20200615".data.take 4) := by
  have h := claim_C4_compact_normalizer "20200615".data ⟨2020, 6, 15⟩
    DateQualityTypeEnum.Precisely (by decide) (by decide) (by decide)
  exact ⟨⟨by decide, by decide, by decide⟩, h.1.2.2.1⟩

/-- C5: for every calendar date expressed in both conventions (day token dd,
month token mm, year token yyyy, including the "00" sentinels), the dotted
normalizer applied to "dd.mm.yyyy" and the compact normalizer applied to
"yyyymmdd" produce the same output: the same calendar date and the same
quality tag (indeed, the same `Option` result in all cases, failures
included). -/
theorem claim_C5_convention_equivalence (dd mm yyyy : List Char)
    (hdl : dd.length = 2) (hml : mm.length = 2) (hyl : yyyy.length = 4)
    (hdd : dd.all isDigit = true) (hmd : mm.all isDigit = true)
    (hyd : yyyy.all isDigit = true) :
    _reformateDate (dd ++ '.' :: (mm ++ '.' :: yyyy))
      = _reformateDateYyyyMmDd (yyyy ++ (mm ++ dd)) := by
  rw [reformateDate_eq_normalizeParts dd mm yyyy (not_dot_mem_of_digits _ hdd)
    (not_dot_mem_of_digits _ hmd) (not_dot_mem_of_digits _ hyd),
    reformateDateYyyyMmDd_eq_normalizeParts]
  have h1 : (yyyy ++ (mm ++ dd)).drop 6 = dd := by
    rw [← List.append_assoc]
    exact List.drop_left' (by rw [List.length_append, hyl, hml])
  have h2 : ((yyyy ++ (mm ++ dd)).take 6).drop 4 = mm := by
    rw [← List.append_assoc, List.take_left' (by rw [List.length_append, hyl, hml])]
    exact List.drop_left' hyl
  have h3 : (yyyy ++ (mm ++ dd)).take 4 = yyyy := List.take_left' hyl
  rw [h1, h2, h3]

/-- Witness for C5 at the date 15.06.2020 / 20200615. -/
theorem claim_C5_convention_equivalence_witness :
    _reformateDate ("15".data ++ '.' :: ("06".data ++ '.' :: "2020".data))
      = _reformateDateYyyyMmDd ("2020".data ++ ("06".data ++ "15".data))
    ∧ _reformateDateYyyyMmDd ("2020".data ++ ("06".data ++ "15".data))
      = some (⟨2020, 6, 15⟩, DateQualityTypeEnum.Precisely) :=
  ⟨claim_C5_convention_equivalence "15".data "06".data "2020".data (by decide) (by decide)
    (by decide) (by decide) (by decide) (by decide), by decide⟩

/-- C8: for every mmdd token and every yyyy token, `_reformateDateMmDd` on
(mmdd, yyyy) returns exactly the result of `_reformateDateYyyyMmDd` on the
concatenation yyyy ++ mmdd. -/
theorem claim_C8_mmdd_entry_point (mmdd yyyy : List Char) :
    _reformateDateMmDd mmdd yyyy = _reformateDateYyyyMmDd (yyyy ++ mmdd) := rfl

theorem resolveGlacier_foldl_no_match (post : List Glacier) (givenVawId : Int)
    (acc : Option Glacier) (h : ∀ g ∈ post, g.pkVaw ≠ givenVawId) :
    post.foldl (fun a glacier => if glacier.pkVaw = givenVawId then some glacier else a) acc
      = acc := by
  induction post generalizing acc with
  | nil => rfl
  | cons g t ih =>
    rw [List.foldl_cons, if_neg (h g (List.mem_cons_self g t))]
    exact ih _ (fun x hx => h x (List.mem_cons_of_mem g hx))

theorem resolveGlacier_foldl_none (gs : List Glacier) (givenVawId : Int)
    (acc : Option Glacier) :
    gs.foldl (fun a glacier => if glacier.pkVaw = givenVawId then some glacier else a) acc = none
      ↔ acc = none ∧ ∀ g ∈ gs, g.pkVaw ≠ givenVawId := by
  induction gs generalizing acc with
  | nil => simp
  | cons g t ih =>
    rw [List.foldl_cons]
    by_cases hg : g.pkVaw = givenVawId
    · rw [if_pos hg, ih]
      simp [hg, List.forall_mem_cons]
    · rw [if_neg hg, ih]
      simp [hg, List.forall_mem_cons]

theorem resolveGlacier_none_iff (gs : List Glacier) (givenVawId : Int) :
    resolveGlacier gs givenVawId = none ↔ ∀ g ∈ gs, g.pkVaw ≠ givenVawId := by
  unfold resolveGlacier
  rw [resolveGlacier_foldl_none]
  simp

theorem resolveGlacier_foldl_some (gs : List Glacier) (givenVawId : Int)
    (acc : Option Glacier) (g : Glacier)
    (h : gs.foldl (fun a glacier => if glacier.pkVaw = givenVawId then some glacier else a) acc
      = some g) :
    (g ∈ gs ∧ g.pkVaw = givenVawId) ∨ acc = some g := by
  induction gs generalizing acc with
  | nil => exact Or.inr h
  | cons x t ih =>
    rw [List.foldl_cons] at h
    rcases ih _ h with hl | hacc
    · exact Or.inl ⟨List.mem_cons_of_mem x hl.1, hl.2⟩
    · by_cases hx : x.pkVaw = givenVawId
      · rw [if_pos hx] at hacc
        cases hacc
        exact Or.inl ⟨List.mem_cons_self _ t, hx⟩
      · rw [if_neg hx] at hacc
        exact Or.inr hacc

theorem resolveGlacier_some (gs : List Glacier) (givenVawId : Int) (g : Glacier)
    (h : resolveGlacier gs givenVawId = some g) : g ∈ gs ∧ g.pkVaw = givenVawId := by
  rcases resolveGlacier_foldl_some gs givenVawId none g h with hl | hacc
  · exact hl
  · cases hacc

theorem vawFileReaderInit_ok_inv (ffn : List Char) (lines : List (List Char)) (nhl : Int)
    (gs : List Glacier) (r : VawFileReader)
    (hok : vawFileReaderInit ffn lines nhl gs = Except.ok r) :
    ∃ idStr X g,
      dictGet? (parseHeader ffn nhl initialHeaderLineContent none lines).1
          _HEADER_POSITION_VAWIDENTIFIER = some idStr
      ∧ pyInt idStr = some X
      ∧ resolveGlacier gs X = some g
      ∧ r = ⟨ffn, lines, nhl, -1,
          (parseHeader ffn nhl initialHeaderLineContent none lines).1,
          (parseHeader ffn nhl initialHeaderLineContent none lines).2.1, g⟩ := by
  unfold vawFileReaderInit at hok
  split at hok
  · exact Except.noConfusion hok
  next idStr hid =>
    split at hok
    · exact Except.noConfusion hok
    next X hX =>
      split at hok
      next g hres =>
        cases hok
        exact ⟨idStr, X, g, hid, hX, hres, rfl⟩
      next hres =>
        split at hok
        · exact Except.noConfusion hok
        next nameStr hname => exact Except.noConfusion hok

theorem vawFileReaderInit_error_of_no_match (ffn : List Char) (lines : List (List Char))
    (nhl : Int) (gs : List Glacier) (idStr nameStr : List Char) (X : Int)
    (hid : dictGet? (parseHeader ffn nhl initialHeaderLineContent none lines).1
        _HEADER_POSITION_VAWIDENTIFIER = some idStr)
    (hname : dictGet? (parseHeader ffn nhl initialHeaderLineContent none lines).1
        _HEADER_POSITION_SHORTNAME = some nameStr)
    (hX : pyInt idStr = some X)
    (hres : resolveGlacier gs X = none) :
    vawFileReaderInit ffn lines nhl gs
      = Except.error (InitError.glacierNotFound (glacierNotFoundMessage idStr nameStr)) := by
  unfold vawFileReaderInit
  simp only [hid, hX, hres, hname]

theorem vawFileReaderInit_ok_of_match (ffn : List Char) (lines : List (List Char))
    (nhl : Int) (gs : List Glacier) (idStr : List Char) (X : Int) (g : Glacier)
    (hid : dictGet? (parseHeader ffn nhl initialHeaderLineContent none lines).1
        _HEADER_POSITION_VAWIDENTIFIER = some idStr)
    (hX : pyInt idStr = some X)
    (hres : resolveGlacier gs X = some g) :
    vawFileReaderInit ffn lines nhl gs
      = Except.ok ⟨ffn, lines, nhl, -1,
          (parseHeader ffn nhl initialHeaderLineContent none lines).1,
          (parseHeader ffn nhl initialHeaderLineContent none lines).2.1, g⟩ := by
  unfold vawFileReaderInit
  simp only [hid, hX, hres]

/-- C2: construction raises GlacierNotFound iff no entity in the
caller-supplied registry has pkVaw equal to the integer parsed from the
header's vaw-identifier field; the raised error carries the attempted
identifier and the header's short name; and no reader object is returned on
failure. -/
theorem claim_C2_glacier_not_found (ffn : List Char) (lines : List (List Char)) (nhl : Int)
    (gs : List Glacier) (idStr nameStr : List Char) (X : Int)
    (hid : dictGet? (parseHeader ffn nhl initialHeaderLineContent none lines).1
        _HEADER_POSITION_VAWIDENTIFIER = some idStr)
    (hname : dictGet? (parseHeader ffn nhl initialHeaderLineContent none lines).1
        _HEADER_POSITION_SHORTNAME = some nameStr)
    (hX : pyInt idStr = some X) :
    ((∃ msg, vawFileReaderInit ffn lines nhl gs
        = Except.error (InitError.glacierNotFound msg)) ↔ ∀ g ∈ gs, g.pkVaw ≠ X)
    ∧ (∀ msg, vawFileReaderInit ffn lines nhl gs
        = Except.error (InitError.glacierNotFound msg) →
        msg = glacierNotFoundMessage idStr nameStr)
    ∧ (∀ msg r, vawFileReaderInit ffn lines nhl gs
        = Except.error (InitError.glacierNotFound msg) →
        vawFileReaderInit ffn lines nhl gs = Except.ok r → False) := by
  cases hres : resolveGlacier gs X with
  | none =>
    have herr := vawFileReaderInit_error_of_no_match ffn lines nhl gs idStr nameStr X
      hid hname hX hres
    refine ⟨⟨fun _ => (resolveGlacier_none_iff gs X).mp hres, fun _ => ⟨_, herr⟩⟩, ?_, ?_⟩
    · intro msg hmsg
      rw [herr] at hmsg
      injection hmsg with h1
      injection h1 with h2
      exact h2.symm
    · intro msg r _ h2
      rw [herr] at h2
      exact Except.noConfusion h2
  | some g =>
    have hok := vawFileReaderInit_ok_of_match ffn lines nhl gs idStr X g hid hX hres
    obtain ⟨hmem, hpk⟩ := resolveGlacier_some gs X g hres
    refine ⟨⟨?_, ?_⟩, ?_, ?_⟩
    · rintro ⟨msg, hmsg⟩
      rw [hok] at hmsg
      exact Except.noConfusion hmsg
    · intro hall
      exact absurd hpk (hall g hmem)
    · intro msg hmsg
      rw [hok] at hmsg
      exact Except.noConfusion hmsg
    · intro msg r hmsg _
      rw [hok] at hmsg
      exact Except.noConfusion hmsg

/-- Witness for C2: on a file whose header names VAW identifier 7 and a
registry containing only pkVaw 5, construction fails with the
GlacierNotFound message carrying "7" and "ALE". -/
theorem claim_C2_glacier_not_found_witness :
    (dictGet? (parseHeader "f.txt".data (-1) initialHeaderLineContent none
        ["h;ALE;7".data]).1 _HEADER_POSITION_VAWIDENTIFIER = some "7".data)
    ∧ pyInt "7".data = some 7
    ∧ vawFileReaderInit "f.txt".data ["h;ALE;7".data] (-1) [⟨5, 0⟩]
        = Except.error (InitError.glacierNotFound (glacierNotFoundMessage "7".data "ALE".data)) := by
  have h := claim_C2_glacier_not_found "f.txt".data ["h;ALE;7".data] (-1) [⟨5, 0⟩]
    "7".data "ALE".data 7 (by decide) (by decide) (by decide)
  refine ⟨by decide, by decide, ?_⟩
  obtain ⟨msg, hmsg⟩ := h.1.mpr (by decide)
  rwa [h.2.1 msg hmsg] at hmsg

/-- C3: glacier resolution scans every registry value in iteration order
with no early exit, so with duplicate pkVaw entries the last match
encountered wins; and for a constructed reader whose header identifier
parses to X, the bound glacier comes from the registry and has pkVaw = X
(in particular when exactly one entry matches). -/
theorem claim_C3_last_match_wins :
    (∀ (pre post : List Glacier) (g : Glacier) (givenVawId : Int),
      g.pkVaw = givenVawId → (∀ x ∈ post, x.pkVaw ≠ givenVawId) →
      resolveGlacier (pre ++ g :: post) givenVawId = some g)
    ∧ (∀ (ffn : List Char) (lines : List (List Char)) (nhl : Int) (gs : List Glacier)
        (idStr : List Char) (X : Int) (r : VawFileReader),
        dictGet? (parseHeader ffn nhl initialHeaderLineContent none lines).1
            _HEADER_POSITION_VAWIDENTIFIER = some idStr →
        pyInt idStr = some X →
        vawFileReaderInit ffn lines nhl gs = Except.ok r →
        r._glacier.pkVaw = X ∧ r._glacier ∈ gs) := by
  constructor
  · intro pre post g givenVawId hg hpost
    unfold resolveGlacier
    rw [List.foldl_append, List.foldl_cons, if_pos hg]
    exact resolveGlacier_foldl_no_match post givenVawId _ hpost
  · intro ffn lines nhl gs idStr X r hid hX hok
    obtain ⟨idStr', X', g, hid', hX', hres, hr⟩ := vawFileReaderInit_ok_inv ffn lines nhl gs r hok
    rw [hid'] at hid
    injection hid with hid
    subst hid
    rw [hX'] at hX
    injection hX with hX
    subst hX
    obtain ⟨hmem, hpk⟩ := resolveGlacier_some gs X' g hres
    rw [hr]
    exact ⟨hpk, hmem⟩

/-- Witness for C3: duplicates with pkVaw 5 resolve to the later entry, and
a constructed reader's bound glacier has the header's identifier. -/
theorem claim_C3_last_match_wins_witness :
    resolveGlacier ([⟨5, 0⟩] ++ (⟨5, 1⟩ : Glacier) :: [⟨7, 2⟩]) 5 = some ⟨5, 1⟩
    ∧ vawFileReaderInit "f.txt".data ["h;ALE;5".data] (-1) [⟨5, 0⟩]
        = Except.ok ⟨"f.txt".data, ["h;ALE;5".data], -1, -1,
            [(1, "ALE".data), (2, "5".data)], none, ⟨5, 0⟩⟩
    ∧ (⟨"f.txt".data, ["h;ALE;5".data], -1, -1, [(1, "ALE".data), (2, "5".data)], none,
        (⟨5, 0⟩ : Glacier)⟩ : VawFileReader)._glacier.pkVaw = 5 := by
  refine ⟨claim_C3_last_match_wins.1 [⟨5, 0⟩] [⟨7, 2⟩] ⟨5, 1⟩ 5 rfl (by decide), by decide, ?_⟩
  exact (claim_C3_last_match_wins.2 "f.txt".data ["h;ALE;5".data] (-1) [⟨5, 0⟩] "5".data 5
    ⟨"f.txt".data, ["h;ALE;5".data], -1, -1, [(1, "ALE".data), (2, "5".data)], none, ⟨5, 0⟩⟩
    (by decide) (by decide) (by decide)).1

/-- C9: immediately after construction, before any data-line parsing, the
numberDataLines accessor returns the sentinel -1; the accessor itself merely
reads the attribute (second conjunct), and no base-reader operation writes
it (parseHeader and the date normalizers are pure functions of their inputs
in this embedding and do not touch the attribute). -/
theorem claim_C9_numberDataLines_sentinel (ffn : List Char) (lines : List (List Char))
    (nhl : Int) (gs : List Glacier) (r : VawFileReader)
    (hok : vawFileReaderInit ffn lines nhl gs = Except.ok r) :
    VawFileReader.numberDataLines r = -1
    ∧ ∀ r' : VawFileReader, VawFileReader.numberDataLines r' = r'._numberDataLines := by
  obtain ⟨idStr, X, g, _, _, _, hr⟩ := vawFileReaderInit_ok_inv ffn lines nhl gs r hok
  exact ⟨by rw [hr]; rfl, fun r' => rfl⟩

/-- Witness for C9 on a concretely constructed reader. -/
theorem claim_C9_numberDataLines_sentinel_witness :
    vawFileReaderInit "f.txt".data ["h;ALE;5".data] (-1) [⟨5, 0⟩]
      = Except.ok ⟨"f.txt".data, ["h;ALE;5".data], -1, -1,
          [(1, "ALE".data), (2, "5".data)], none, ⟨5, 0⟩⟩
    ∧ VawFileReader.numberDataLines ⟨"f.txt".data, ["h;ALE;5".data], -1, -1,
        [(1, "ALE".data), (2, "5".data)], none, ⟨5, 0⟩⟩ = -1 :=
  ⟨by decide, (claim_C9_numberDataLines_sentinel "f.txt".data ["h;ALE;5".data] (-1) [⟨5, 0⟩]
    ⟨"f.txt".data, ["h;ALE;5".data], -1, -1, [(1, "ALE".data), (2, "5".data)], none, ⟨5, 0⟩⟩
    (by decide)).1⟩

theorem parseHeaderLine_content_of_ne_one (src : List Char) (nhl : Int)
    (content : List (Nat × List Char)) (ds : Option (List Char)) (lineCounter : Nat)
    (line : List Char) (h : lineCounter ≠ 1) :
    (parseHeaderLine src nhl content ds lineCounter line).1 = content := by
  unfold parseHeaderLine
  by_cases hb : ((lineCounter : Nat) : Int) = nhl <;> simp [h, hb]

theorem parseHeaderLine_ds_of_ne_nhl (src : List Char) (nhl : Int)
    (content : List (Nat × List Char)) (ds : Option (List Char)) (lineCounter : Nat)
    (line : List Char) (h : ((lineCounter : Nat) : Int) ≠ nhl) :
    (parseHeaderLine src nhl content ds lineCounter line).2.1 = ds := by
  unfold parseHeaderLine
  by_cases hr : (if lineCounter = 1 then _getMetadata content (splitOnChar ';' line)
      else (content, false)).2 <;> simp [hr, h]

theorem parseHeaderLine_ds_set (src : List Char) (nhl : Int)
    (content : List (Nat × List Char)) (ds : Option (List Char)) (lineCounter : Nat)
    (line : List Char) (h1 : lineCounter ≠ 1) (h : ((lineCounter : Nat) : Int) = nhl) :
    (parseHeaderLine src nhl content ds lineCounter line).2.1
      = some (pyReplaceStr attributionMark [] (pyStrip line)) := by
  unfold parseHeaderLine
  simp [h1, h]

theorem parseHeaderFrom_content_const (src : List Char) (nhl : Int)
    (lines : List (List Char)) :
    ∀ (counter : Nat) (content : List (Nat × List Char)) (ds : Option (List Char)),
    1 ≤ counter → (parseHeaderFrom src nhl counter content ds lines).1 = content := by
  induction lines with
  | nil => intro counter content ds _; rfl
  | cons l t ih =>
    intro counter content ds h
    have hc : counter + 1 ≠ 1 := by omega
    simp only [parseHeaderFrom]
    rw [parseHeaderLine_content_of_ne_one src nhl content ds (counter + 1) l hc]
    exact ih (counter + 1) content _ (by omega)

theorem parseHeaderFrom_ds_high (src : List Char) (nhl : Int) (lines : List (List Char)) :
    ∀ (counter : Nat) (content : List (Nat × List Char)) (ds : Option (List Char)),
    nhl ≤ (counter : Int) → (parseHeaderFrom src nhl counter content ds lines).2.1 = ds := by
  induction lines with
  | nil => intro counter content ds _; rfl
  | cons l t ih =>
    intro counter content ds h
    have hne : ((counter + 1 : Nat) : Int) ≠ nhl := by push_cast; omega
    simp only [parseHeaderFrom]
    rw [parseHeaderLine_ds_of_ne_nhl src nhl content ds (counter + 1) l hne]
    exact ih (counter + 1) _ ds (by push_cast; omega)

theorem parseHeaderFrom_ds_low (src : List Char) (nhl : Int) (lines : List (List Char)) :
    ∀ (counter : Nat) (content : List (Nat × List Char)) (ds : Option (List Char)),
    ((counter + lines.length : Nat) : Int) < nhl →
    (parseHeaderFrom src nhl counter content ds lines).2.1 = ds := by
  induction lines with
  | nil => intro counter content ds _; rfl
  | cons l t ih =>
    intro counter content ds h
    rw [List.length_cons] at h
    have hne : ((counter + 1 : Nat) : Int) ≠ nhl := by push_cast; push_cast at h; omega
    simp only [parseHeaderFrom]
    rw [parseHeaderLine_ds_of_ne_nhl src nhl content ds (counter + 1) l hne]
    exact ih (counter + 1) _ ds (by push_cast; push_cast at h; omega)

theorem parseHeaderFrom_ds_append (src : List Char) (nhl : Int) (xs ys : List (List Char)) :
    ∀ (counter : Nat) (content : List (Nat × List Char)) (ds : Option (List Char)),
    (parseHeaderFrom src nhl counter content ds (xs ++ ys)).2.1
      = (parseHeaderFrom src nhl (counter + xs.length)
          (parseHeaderFrom src nhl counter content ds xs).1
          (parseHeaderFrom src nhl counter content ds xs).2.1 ys).2.1 := by
  induction xs with
  | nil => intro counter content ds; simp [parseHeaderFrom]
  | cons l t ih =>
    intro counter content ds
    simp only [List.cons_append, parseHeaderFrom, List.length_cons, List.append_eq]
    rw [ih]
    have harith : counter + 1 + t.length = counter + (t.length + 1) := by omega
    rw [harith]

theorem parseHeaderLine_error (src : List Char) (nhl : Int)
    (content : List (Nat × List Char)) (ds : Option (List Char)) (line : List Char)
    (herr : (_getMetadata content (splitOnChar ';' line)).2 = true) :
    parseHeaderLine src nhl content ds 1 line
      = ((_getMetadata content (splitOnChar ';' line)).1, ds,
          [⟨src, 1, indexErrorDetail⟩]) := by
  unfold parseHeaderLine
  simp [herr]

theorem getMetadata_short_line (parts : List (List Char)) (h : parts.length ≤ 2) :
    (_getMetadata initialHeaderLineContent parts).2 = true
    ∧ dictGet? (_getMetadata initialHeaderLineContent parts).1 _HEADER_POSITION_VAWIDENTIFIER
        = some "VAW identifier".data := by
  have h2 : parts[2]? = none := List.getElem?_eq_none h
  have hinit : initialHeaderLineContent
      = [(1, "Glacier short name".data), (2, "VAW identifier".data)] := by decide
  rw [hinit]
  cases hp1 : parts[1]? with
  | none => simp [_getMetadata, hp1, dictGet?, List.find?, _HEADER_POSITION_VAWIDENTIFIER]
  | some p => simp [_getMetadata, hp1, h2, dictGet?, List.find?, _HEADER_POSITION_VAWIDENTIFIER]

/-- C6: on a header line whose configured field position exceeds the number
of ;-delimited segments, `parseHeader` catches the per-line exception, logs
an entry identifying the source, the line number and the error detail, and
continues with the subsequent lines from the partially-updated state; the
failed field keeps its default label (no extracted value), and no per-line
failure aborts the parse (the final conjunct shows the whole-parse result is
exactly the error log entry followed by the normal processing of the rest of
the lines). -/
theorem claim_C6_per_line_error_recovery (src : List Char) (nhl : Int) (line1 : List Char)
    (rest : List (List Char)) (hshort : (splitOnChar ';' line1).length ≤ 2) :
    (_getMetadata initialHeaderLineContent (splitOnChar ';' line1)).2 = true
    ∧ ⟨src, 1, indexErrorDetail⟩
        ∈ (parseHeader src nhl initialHeaderLineContent none (line1 :: rest)).2.2
    ∧ dictGet? (parseHeader src nhl initialHeaderLineContent none (line1 :: rest)).1
        _HEADER_POSITION_VAWIDENTIFIER = some "VAW identifier".data
    ∧ parseHeader src nhl initialHeaderLineContent none (line1 :: rest)
        = ((parseHeaderFrom src nhl 1
              (_getMetadata initialHeaderLineContent (splitOnChar ';' line1)).1 none rest).1,
           (parseHeaderFrom src nhl 1
              (_getMetadata initialHeaderLineContent (splitOnChar ';' line1)).1 none rest).2.1,
           ⟨src, 1, indexErrorDetail⟩
             :: (parseHeaderFrom src nhl 1
                  (_getMetadata initialHeaderLineContent (splitOnChar ';' line1)).1
                  none rest).2.2) := by
  have hgm := getMetadata_short_line (splitOnChar ';' line1) hshort
  have hstep : parseHeader src nhl initialHeaderLineContent none (line1 :: rest)
      = ((parseHeaderFrom src nhl 1
            (_getMetadata initialHeaderLineContent (splitOnChar ';' line1)).1 none rest).1,
         (parseHeaderFrom src nhl 1
            (_getMetadata initialHeaderLineContent (splitOnChar ';' line1)).1 none rest).2.1,
         ⟨src, 1, indexErrorDetail⟩
           :: (parseHeaderFrom src nhl 1
                (_getMetadata initialHeaderLineContent (splitOnChar ';' line1)).1
                none rest).2.2) := by
    unfold parseHeader
    simp only [parseHeaderFrom, Nat.zero_add]
    rw [parseHeaderLine_error src nhl initialHeaderLineContent none line1 hgm.1]
    rfl
  refine ⟨hgm.1, ?_, ?_, hstep⟩
  · rw [hstep]
    exact List.mem_cons_self _ _
  · rw [hstep]
    rw [show ((parseHeaderFrom src nhl 1
        (_getMetadata initialHeaderLineContent (splitOnChar ';' line1)).1 none rest).1,
        (parseHeaderFrom src nhl 1
          (_getMetadata initialHeaderLineContent (splitOnChar ';' line1)).1 none rest).2.1,
        ⟨src, 1, indexErrorDetail⟩
          :: (parseHeaderFrom src nhl 1
              (_getMetadata initialHeaderLineContent (splitOnChar ';' line1)).1
              none rest).2.2).1
      = (parseHeaderFrom src nhl 1
          (_getMetadata initialHeaderLineContent (splitOnChar ';' line1)).1 none rest).1
      from rfl]
    rw [parseHeaderFrom_content_const src nhl rest 1 _ none (le_refl 1)]
    exact hgm.2

/-- Witness for C6: the file whose first line "x;ALE" lacks the
VAW-identifier segment still parses its remaining lines (line 3 sets the
attribution), logs the IndexError for line 1, and leaves position 2 holding
the default label. -/
theorem claim_C6_per_line_error_recovery_witness :
    (splitOnChar ';' "x;ALE".data).length ≤ 2
    ∧ ⟨"f".data, 1, indexErrorDetail⟩
        ∈ (parseHeader "f".data 3 initialHeaderLineContent none
            ["x;ALE".data, "d".data, "# © X".data]).2.2
    ∧ dictGet? (parseHeader "f".data 3 initialHeaderLineContent none
        ["x;ALE".data, "d".data, "# © X".data]).1 _HEADER_POSITION_VAWIDENTIFIER
        = some "VAW identifier".data
    ∧ (parseHeader "f".data 3 initialHeaderLineContent none
        ["x;ALE".data, "d".data, "# © X".data]).2.1 = some "X".data := by
  have h := claim_C6_per_line_error_recovery "f".data 3 "x;ALE".data
    ["d".data, "# © X".data] (by decide)
  exact ⟨by decide, h.2.1, h.2.2.1, by decide⟩

/-- C7 counterexample: on the final header line "a# © b" the attribution
token occurs in the middle, not as a prefix; a prefix-strip (as the claim
states it — `specAttribution`) would store the trimmed line unchanged, but
the code's `str.replace` removes the occurrence and stores "ab". -/
theorem claim_C7_attribution_counterexample :
    (parseHeader "f.txt".data 2 initialHeaderLineContent none
        ["h;ALE;5".data, "a# © b".data]).2.1 = some "ab".data
    ∧ specAttribution "a# © b".data = "a# © b".data
    ∧ ("ab".data : List Char) ≠ "a# © b".data := by decide

/-- C7 (amended): on the line whose 1-based number equals the configured
total header-line count (taken here ≥ 2, i.e. a final header line distinct
from line 1), `parseHeader` stores as the data-source attribution the entire
line, trimmed of surrounding whitespace, with every occurrence of the
literal token "# © " removed (Python `str.replace`, not only a leading
prefix strip). -/
theorem claim_C7_attribution_replace_all (src : List Char) (pre post : List (List Char))
    (line : List Char) (nhl : Int)
    (hn : nhl = (pre.length : Int) + 1) (h2 : 2 ≤ nhl) :
    (parseHeader src nhl initialHeaderLineContent none (pre ++ line :: post)).2.1
      = some (pyReplaceStr attributionMark [] (pyStrip line)) := by
  have hpre : 1 ≤ pre.length := by omega
  unfold parseHeader
  rw [parseHeaderFrom_ds_append]
  rw [parseHeaderFrom_ds_low src nhl pre 0 initialHeaderLineContent none
    (by push_cast; omega)]
  simp only [parseHeaderFrom]
  rw [parseHeaderLine_ds_set src nhl _ none (0 + pre.length + 1) line (by omega)
    (by push_cast; omega)]
  exact parseHeaderFrom_ds_high src nhl post _ _ _ (by push_cast; omega)

/-- Witness for C7 (amended), at the attribution line named by the claim:
"# © VAW Glaciology 2020" stores as "VAW Glaciology 2020". -/
theorem claim_C7_attribution_replace_all_witness :
    ((2 : Int) = ((["h;ALE;5".data] : List (List Char)).length : Int) + 1 ∧ (2 : Int) ≤ 2)
    ∧ (parseHeader "f.txt".data 2 initialHeaderLineContent none
        (["h;ALE;5".data] ++ "# © VAW Glaciology 2020".data :: [])).2.1
      = some "VAW Glaciology 2020".data := by
  refine ⟨⟨by decide, by decide⟩, ?_⟩
  exact (claim_C7_attribution_replace_all "f.txt".data ["h;ALE;5".data] []
    "# © VAW Glaciology 2020".data 2 (by decide) (by decide)).trans (by decide)

theorem getMetadata_partial (k : Nat) (v : List Char) (rest : List (Nat × List Char))
    (parts : List (List Char)) (hk : parts.length ≤ k) :
    ∀ done : List (Nat × List Char), (∀ p ∈ done, p.1 < parts.length) →
    _getMetadata (done ++ (k, v) :: rest) parts
      = (done.map (fun p => (p.1, pyStrip (parts.getD p.1 []))) ++ (k, v) :: rest, true) := by
  have hnone : parts[k]? = none := List.getElem?_eq_none hk
  intro done
  induction done with
  | nil =>
    intro _
    simp [_getMetadata, hnone]
  | cons p t ih =>
    intro hdone
    obtain ⟨key, value⟩ := p
    have hp : key < parts.length := hdone (key, value) (List.mem_cons_self _ t)
    have hsome : parts[key]? = some parts[key] := List.getElem?_eq_getElem hp
    simp only [List.cons_append, _getMetadata, hsome, List.append_eq]
    rw [ih (fun x hx => hdone x (List.mem_cons_of_mem _ hx))]
    simp [List.getD_eq_getElem?_getD, hsome]

/-- C10: the header-field update of `_getMetadata` is not atomic: it writes
the extracted, stripped segments into the dict one configured position at a
time in the dict's iteration order, so when a later position is out of range
of the ;-split segments, the positions already processed keep their freshly
written values, the failed position and the ones after it keep their
previous values (the human-readable labels), and the exception propagates to
`parseHeader`'s per-line handler as a logged IndexError. -/
theorem claim_C10_nonatomic_metadata_update (done : List (Nat × List Char)) (k : Nat)
    (v : List Char) (rest : List (Nat × List Char)) (line src : List Char) (nhl : Int)
    (ds : Option (List Char))
    (hdone : ∀ p ∈ done, p.1 < (splitOnChar ';' line).length)
    (hk : (splitOnChar ';' line).length ≤ k) :
    _getMetadata (done ++ (k, v) :: rest) (splitOnChar ';' line)
      = (done.map (fun p => (p.1, pyStrip ((splitOnChar ';' line).getD p.1 [])))
          ++ (k, v) :: rest, true)
    ∧ parseHeaderLine src nhl (done ++ (k, v) :: rest) ds 1 line
      = (done.map (fun p => (p.1, pyStrip ((splitOnChar ';' line).getD p.1 [])))
          ++ (k, v) :: rest, ds, [⟨src, 1, indexErrorDetail⟩]) := by
  have hmain := getMetadata_partial k v rest (splitOnChar ';' line) hk done hdone
  refine ⟨hmain, ?_⟩
  rw [parseHeaderLine_error src nhl _ ds line (by rw [hmain])]
  rw [hmain]

/-- Witness for C10: with the base header dict and the two-segment line
"x;ALE", position 1 is overwritten with "ALE" while position 2 keeps its
label, and the per-line handler receives the error. -/
theorem claim_C10_nonatomic_metadata_update_witness :
    (∀ p ∈ [((1 : Nat), "Glacier short name".data)],
      p.1 < (splitOnChar ';' "x;ALE".data).length)
    ∧ (splitOnChar ';' "x;ALE".data).length ≤ 2
    ∧ _getMetadata ([(1, "Glacier short name".data)] ++ (2, "VAW identifier".data) :: [])
        (splitOnChar ';' "x;ALE".data)
      = ([(1, "ALE".data), (2, "VAW identifier".data)], true) := by
  have h := claim_C10_nonatomic_metadata_update [(1, "Glacier short name".data)] 2
    "VAW identifier".data [] "x;ALE".data "f".data 5 none (by decide) (by decide)
  exact ⟨by decide, by decide, h.1.trans (by decide)⟩
